import Mathlib

/-!
Verification development for the `vitals` repository (lab-report extraction
pipeline).  The Python sources `extract_labs.py` and `server.py` are shallowly
embedded below: JSON-like Python values become the inductive `PyVal`, Python
dicts become association lists with first-occurrence lookup and in-place
update, Python floats are modelled as rationals (comparison-only usage, no
NaN/infinity arises in the modelled code paths), and the filesystem touched by
the HTTP server's scratch-directory handling becomes an explicit list of
paths.
-/

set_option autoImplicit false

/-- A Python/JSON value as produced by `json.loads` and manipulated by
`normalize_flags_and_context`.  `bool` is kept separate from `int` because
Python's `isinstance(x, (int, float))` treats `bool` as numeric while
`x in (None, "")` does not. -/
inductive PyVal where
  | none_ : PyVal
  | bool : Bool → PyVal
  | int : Int → PyVal
  | float : ℚ → PyVal
  | str : String → PyVal
  | list : List PyVal → PyVal
  | dict : List (String × PyVal) → PyVal

/-- Python `d.get(k)`: value at the first occurrence of key `k`, if any. -/
def dget {α : Type} : List (String × α) → String → Option α
  | [], _ => none
  | (k', v') :: rest, k => if k' = k then some v' else dget rest k

/-- Python `d[k] = v`: replace the value at the first occurrence of `k`
(keeping its position), or append a new binding at the end. -/
def dset {α : Type} : List (String × α) → String → α → List (String × α)
  | [], k, v => [(k, v)]
  | (k', v') :: rest, k, v =>
    if k' = k then (k, v) :: rest else (k', v') :: dset rest k v

/-- Python `x in (None, "")` applied to the result of `lab.get(key)`:
true when the key is absent, bound to `None`, or bound to the empty string. -/
def flagMissing : Option PyVal → Bool
  | none => true
  | some PyVal.none_ => true
  | some (PyVal.str s) => s = ""
  | _ => false

/-- Python `isinstance(x, (int, float))` applied to `lab.get(key)`:
`bool` is a subclass of `int` in Python, so booleans count as numeric. -/
def isNumeric : Option PyVal → Bool
  | some (PyVal.int _) => true
  | some (PyVal.float _) => true
  | some (PyVal.bool _) => true
  | _ => false

/-- Numeric value of a Python number for comparison purposes
(`True` compares as 1 and `False` as 0).  Only meaningful under
`isNumeric`; defaults to 0 elsewhere. -/
def toRat : Option PyVal → ℚ
  | some (PyVal.int n) => (n : ℚ)
  | some (PyVal.float q) => q
  | some (PyVal.bool b) => if b then 1 else 0
  | _ => 0

/-- The guard of extract_labs.py line 163: `flag in (None, "") and
isinstance(value, (int, float)) and isinstance(ref_low, (int, float)) and
isinstance(ref_high, (int, float)) and qualifier in (None, "")`. -/
def labEligible (l : List (String × PyVal)) : Bool :=
  flagMissing (dget l "flag") && isNumeric (dget l "value")
    && isNumeric (dget l "ref_low") && isNumeric (dget l "ref_high")
    && flagMissing (dget l "qualifier")

/-- The per-entry body of the `for lab in labs` loop of
`normalize_flags_and_context` (extract_labs.py lines 155-169): non-dict
entries are skipped, and a dict entry gets a flag exactly when its flag is
missing/empty, `value`, `ref_low`, `ref_high` are all numeric, and its
qualifier is missing/empty. -/
def normLab (lab : PyVal) : PyVal :=
  match lab with
  | PyVal.dict l =>
    if labEligible l then
      if toRat (dget l "value") < toRat (dget l "ref_low") then
        PyVal.dict (dset l "flag" (PyVal.str "L"))
      else if toRat (dget l "value") > toRat (dget l "ref_high") then
        PyVal.dict (dset l "flag" (PyVal.str "H"))
      else
        PyVal.dict (dset l "flag" (PyVal.str "N"))
    else PyVal.dict l
  | v => v

/-- Lines 147-150 of extract_labs.py: the existing `context` dict, or a fresh
empty one when the key is absent or not bound to a dict. -/
def ctxOf (data : List (String × PyVal)) : List (String × PyVal) :=
  match dget data "context" with
  | some (PyVal.dict c) => c
  | _ => []

/-- Lines 146-151 of extract_labs.py: ensure `context` is a dict and
overwrite `context["report_ids"]` with the list of PDF names. -/
def withContext (data : List (String × PyVal)) (pdf_names : List String) :
    List (String × PyVal) :=
  dset data "context"
    (PyVal.dict (dset (ctxOf data) "report_ids" (PyVal.list (pdf_names.map PyVal.str))))

/-- Embeds `normalize_flags_and_context` (extract_labs.py lines 141-170): ensure
`context` is a dict, overwrite `context["report_ids"]` with the PDF name
list, then run the flag-inference loop over `data["labs"]` when it is a
list (in-place mutation of the lab dicts is rendered as rebuilding the
list). -/
def normalize_flags_and_context (data : List (String × PyVal))
    (pdf_names : List String) : List (String × PyVal) :=
  match dget (withContext data pdf_names) "labs" with
  | some (PyVal.list labs) =>
    dset (withContext data pdf_names) "labs" (PyVal.list (labs.map normLab))
  | _ => withContext data pdf_names

/-- Python `s.strip()`: drop leading and trailing whitespace.  Defined on the
character list so that it evaluates by kernel reduction. -/
def pyStrip (s : String) : String :=
  String.mk (((s.data.dropWhile Char.isWhitespace).reverse.dropWhile Char.isWhitespace).reverse)

/-- Embeds `find_index` (extract_labs.py lines 24-28): index of the first line whose
stripped content equals `label`; Python returns `-1` when absent, modelled as
`none`. -/
def find_index (lines : List String) (label : String) : Option Nat :=
  lines.findIdx? (fun ln => pyStrip ln = label)

/-- The system block of `read_prompts_from_markdown`:
`"\n".join(lines[system_idx + 1 : user_idx]).strip()`. -/
def sysBlockOf (lines : List String) (si ui : Nat) : String :=
  pyStrip (String.intercalate "\n" ((lines.drop (si + 1)).take (ui - (si + 1))))

/-- The user block of `read_prompts_from_markdown`:
`"\n".join(lines[user_idx + 1 :]).strip()`. -/
def userBlockOf (lines : List String) (ui : Nat) : String :=
  pyStrip (String.intercalate "\n" (lines.drop (ui + 1)))

/-- Lines 32-39 of extract_labs.py, once both markers were found at `si` and
`ui`: reject `ui ≤ si`, then reject empty trimmed blocks, else return the
pair. -/
def assemble_blocks (lines : List String) (si ui : Nat) :
    Except String (String × String) :=
  if ui ≤ si then
    Except.error "Could not locate SYSTEM and USER blocks in ai-prompt.md"
  else if sysBlockOf lines si ui = "" ∨ userBlockOf lines ui = "" then
    Except.error "SYSTEM or USER block appears empty in ai-prompt.md"
  else Except.ok (sysBlockOf lines si ui, userBlockOf lines ui)

/-- Embeds `read_prompts_from_markdown` (extract_labs.py lines 15-39), taking the
file's line list (`text.splitlines()` with trailing newlines removed) as
input.  Raised `RuntimeError`s are modelled as `Except.error`. -/
def read_prompts_from_markdown (lines : List String) :
    Except String (String × String) :=
  match find_index lines "SYSTEM", find_index lines "USER" with
  | some si, some ui => assemble_blocks lines si ui
  | _, _ => Except.error "Could not locate SYSTEM and USER blocks in ai-prompt.md"

/-- Python `s.lower()` (ASCII use only in this code base). -/
def pyLower (s : String) : String :=
  String.mk (s.data.map Char.toLower)

/-- Model of `pathlib.PurePath.suffix`: the extension of the final path component,
taken from its last dot; empty when the name has no dot, starts with its only
dot, or ends in a dot. -/
def pySuffix (p : String) : String :=
  let cs := (p.data.reverse.takeWhile (fun c => c ≠ '/')).reverse
  match cs.reverse.findIdx? (fun c => c = '.') with
  | none => ""
  | some j =>
    let i := cs.length - 1 - j
    if 0 < i ∧ i < cs.length - 1 then String.mk (cs.drop i) else ""

/-- Embeds `is_image_file` (extract_labs.py lines 53-55). -/
def is_image_file (p : String) : Bool :=
  [".png", ".jpg", ".jpeg", ".webp", ".gif", ".bmp", ".tif", ".tiff", ".heic"].contains
    (pyLower (pySuffix p))

/-- Embeds `is_pdf_file` (extract_labs.py lines 58-59). -/
def is_pdf_file (p : String) : Bool :=
  pyLower (pySuffix p) == ".pdf"

/-- Command-line arguments of `main` (extract_labs.py lines 174-181), after
argparse: `files` positional, with the remaining options carrying their
defaults unless overridden. -/
structure CliArgs where
  files : List String
  output : String
  model : String
  prompt : String
  input_dir : String
  max_files : Int

/-- The environment `main` consults before its first network call: whether
`OPENAI_API_KEY` is set, the readable text files (as line lists, `none` when
opening raises `FileNotFoundError`), which paths are regular files, and
directory listings (`none` when the directory is absent). -/
structure CliWorld where
  apiKeySet : Bool
  readFileLines : String → Option (List String)
  fileIsFile : String → Bool
  dirListing : String → Option (List String)

/-- How a run of `main` leaves the pre-network phase: a handled error printed
to stderr with `return 2`, an uncaught Python exception (traceback on stderr,
interpreter exit status 1), or falling through to the OpenAI client
construction and network calls with the resolved input paths. -/
inductive MainOutcome where
  | exit2 : String → MainOutcome
  | uncaught : String → MainOutcome
  | network : List String → MainOutcome

/-- Python `input_paths[: max_files]` guarded by `if args.max_files and
args.max_files > 0` (extract_labs.py lines 213-214). -/
def truncateFiles (a : CliArgs) (ps : List String) : List String :=
  if a.max_files > 0 then ps.take a.max_files.toNat else ps

/-- The pre-network phase of `main` (extract_labs.py lines 183-222):
credential check, prompt loading (where a missing prompt file surfaces as an
uncaught `FileNotFoundError` from `Path.read_text`), then input resolution,
stopping where the `OpenAI()` client is built. -/
def main_pre (w : CliWorld) (a : CliArgs) : MainOutcome :=
  if !w.apiKeySet then
    MainOutcome.exit2 "ERROR: OPENAI_API_KEY is not set (set in environment or in a .env file)"
  else
    match w.readFileLines a.prompt with
    | none => MainOutcome.uncaught "FileNotFoundError"
    | some promptLines =>
      match read_prompts_from_markdown promptLines with
      | Except.error e => MainOutcome.uncaught e
      | Except.ok _ =>
        match a.files with
        | _ :: _ =>
          if a.files.all w.fileIsFile then
            MainOutcome.network (truncateFiles a a.files)
          else MainOutcome.exit2 "ERROR: File not found"
        | [] =>
          match w.dirListing a.input_dir with
          | none => MainOutcome.exit2 "ERROR: Input directory not found"
          | some entries =>
            let supported := (entries.mergeSort (fun x y => decide (x ≤ y))).filter
              (fun p => w.fileIsFile p && (is_image_file p || is_pdf_file p))
            match supported with
            | [] => MainOutcome.exit2 "ERROR: No supported files found in directory"
            | _ :: _ => MainOutcome.network (truncateFiles a supported)

/-- True exactly for the outcomes the CLI reports on stderr with exit code
2. -/
def reportsError2 : MainOutcome → Bool
  | MainOutcome.exit2 _ => true
  | _ => false

/-- Python `str(path)` for a path given by its components. -/
def pathStr : List String → String
  | [] => ""
  | [x] => x
  | x :: y :: rest => x ++ "/" ++ pathStr (y :: rest)

/-- Python `s.startswith(pre)`: character-level prefix test. -/
def pyStartswith (s pre : String) : Bool :=
  pre.data.isPrefixOf s.data

/-- Model of `shutil.rmtree(root)` on a filesystem modelled as the list of existing
paths: removes `root` and everything below it. -/
def rmtree (root : List String) (fs : List (List String)) : List (List String) :=
  fs.filter (fun q => !(root.isPrefixOf q))

/-- Embeds `_cleanup_paths` (server.py lines 53-63): no-op on an empty list;
otherwise take the parent of the first path and, when its final component is
not literally `tmp_uploads`, delete it recursively provided it exists and its
string form starts with the string form of `BASE_DIR / "tmp_uploads"`.
Exceptions inside the guarded block are swallowed (nothing in the model can
fail, so no case is needed). -/
def cleanup_paths (baseDir : List String) (paths : List (List String))
    (fs : List (List String)) : List (List String) :=
  match paths with
  | [] => fs
  | p0 :: _ =>
    let parent := p0.dropLast
    if parent.getLastD "" ≠ "tmp_uploads" then
      if fs.elem parent
          && pyStartswith (pathStr parent) (pathStr (baseDir ++ ["tmp_uploads"])) then
        rmtree parent fs
      else fs
    else fs

/-- An uploaded file as `ingest_labs` receives it.  `uf.filename` is
client-supplied: it is rendered as its pathlib components (`parts` — empty
for the empty filename, and possibly several components or literal `..`
entries, which pathlib keeps unresolved) together with whether the filename
is absolute (`isAbs`; pathlib's `tmp_dir / filename` then ignores
`tmp_dir`).  `copyOk` says whether opening the destination and
`shutil.copyfileobj` succeed — a client disconnect mid-stream or an
unopenable destination makes it false. -/
structure Upload where
  isAbs : Bool
  parts : List String
  copyOk : Bool

/-- Python `tmp_dir / uf.filename` (pathlib `/`): an absolute filename
replaces `tmp_dir` entirely, a relative one appends its components. -/
def destOf (tmpDir : List String) (u : Upload) : List String :=
  if u.isAbs then u.parts else tmpDir ++ u.parts

/-- The copy loop of `_save_uploads_to_temp` (server.py lines 44-49),
running after the scratch directory exists: copy each upload in order and
raise at the first failure — copying onto the directory itself (empty
`parts`, from an empty filename: `dest.open("wb")` raises
`IsADirectoryError`) or a failed copy (`copyOk = false`).  An error carries
the filesystem as left behind (directory created, earlier files copied; a
partially written destination file is not tracked); success carries the
saved paths in order plus the filesystem. -/
def save_go (tmpDir : List String) :
    List Upload → List (List String) →
    Except (List (List String)) (List (List String) × List (List String))
  | [], fs => Except.ok ([], fs)
  | u :: rest, fs =>
    if u.parts.isEmpty || !u.copyOk then Except.error fs
    else
      match save_go tmpDir rest (destOf tmpDir u :: fs) with
      | Except.error fsE => Except.error fsE
      | Except.ok (saved, fsO) => Except.ok (destOf tmpDir u :: saved, fsO)

/-- Embeds `_save_uploads_to_temp` (server.py lines 41-50): make the
per-request scratch directory `BASE_DIR / "tmp_uploads" / <uuid>` (with its
parent, via `parents=True`), then copy each upload into it; any copy failure
propagates as an exception after the directory was already created. -/
def save_uploads_to_temp (baseDir : List String) (uuid : String)
    (uploads : List Upload) (fs : List (List String)) :
    Except (List (List String)) (List (List String) × List (List String)) :=
  save_go (baseDir ++ ["tmp_uploads", uuid]) uploads
    ((baseDir ++ ["tmp_uploads", uuid]) :: (baseDir ++ ["tmp_uploads"]) :: fs)

/-- The scratch-directory lifecycle of `ingest_labs` (server.py lines
159-185) for a request that uploads at least one file.  When saving raises,
the exception escapes the `try` body before `saved_paths` is assigned, so
the `finally` guard `if files and saved_paths` sees an empty list and skips
`_cleanup_paths` — the scratch directory is left behind.  When saving
succeeds, `_process_paths` runs (writing `labs.json` on success, raising on
failure — either way the `finally` block runs `_cleanup_paths` on the saved
paths). -/
def ingest_scratch (baseDir : List String) (uuid : String)
    (uploads : List Upload) (processOk : Bool)
    (fs : List (List String)) : List (List String) :=
  match uploads with
  | [] => fs
  | _ :: _ =>
    match save_uploads_to_temp baseDir uuid uploads fs with
    | Except.error fs1 => fs1
    | Except.ok (saved, fs1) =>
      cleanup_paths baseDir saved
        (if processOk then (baseDir ++ ["labs.json"]) :: fs1 else fs1)

/-- Derived description of what the lab loop does to the value stored under
`"labs"`. -/
def labsTransform : PyVal → PyVal
  | PyVal.list L => PyVal.list (L.map normLab)
  | w => w

/-- Spec-side reading of `x in (None, "")`: field absent, `null`, or the
empty string. -/
def isMissingOrEmpty (v : Option PyVal) : Prop :=
  v = none ∨ v = some PyVal.none_ ∨ v = some (PyVal.str "")

/-- Spec-side reading of "numeric": the rational a JSON number (or boolean,
with `true` as 1 and `false` as 0) denotes. -/
def numericValue : Option PyVal → Option ℚ
  | some (PyVal.int n) => some (n : ℚ)
  | some (PyVal.float q) => some q
  | some (PyVal.bool b) => some (if b then 1 else 0)
  | _ => none

/-- The spec's description of what the flag-inference loop does to each lab
entry: eligible dict entries (flag missing/empty, numeric value and bounds,
qualifier missing/empty) get flag `L`/`H`/`N` by range comparison, every
other entry is unchanged. -/
def flagInferenceSpec (L L' : List PyVal) : Prop :=
  ∀ i (h1 : i < L.length) (h2 : i < L'.length),
    (∀ l, L[i] = PyVal.dict l →
      (∀ v lo hi, isMissingOrEmpty (dget l "flag") →
        numericValue (dget l "value") = some v →
        numericValue (dget l "ref_low") = some lo →
        numericValue (dget l "ref_high") = some hi →
        isMissingOrEmpty (dget l "qualifier") →
        L'[i] = PyVal.dict (dset l "flag" (PyVal.str
          (if v < lo then "L" else if v > hi then "H" else "N"))))
      ∧ (¬(isMissingOrEmpty (dget l "flag")
            ∧ (numericValue (dget l "value")).isSome = true
            ∧ (numericValue (dget l "ref_low")).isSome = true
            ∧ (numericValue (dget l "ref_high")).isSome = true
            ∧ isMissingOrEmpty (dget l "qualifier")) →
          L'[i] = PyVal.dict l))
    ∧ ((∀ l, L[i] ≠ PyVal.dict l) → L'[i] = L[i])

theorem dget_dset_self {α : Type} (d : List (String × α)) (k : String) (v : α) :
    dget (dset d k v) k = some v := by
  induction d with
  | nil => simp [dget, dset]
  | cons kv rest ih =>
    obtain ⟨a, b⟩ := kv
    by_cases h : a = k
    · simp [dset, dget, h]
    · simp [dset, dget, h, ih]

theorem dget_dset_ne {α : Type} (d : List (String × α)) (k k' : String) (v : α)
    (h : k' ≠ k) : dget (dset d k v) k' = dget d k' := by
  induction d with
  | nil => simp [dget, dset, Ne.symm h]
  | cons kv rest ih =>
    obtain ⟨a, b⟩ := kv
    by_cases hak : a = k
    · subst hak
      simp [dset, dget, Ne.symm h]
    · by_cases hak' : a = k'
      · simp [dset, dget, hak, hak', h]
      · simp [dset, dget, hak, hak', ih]

theorem dset_dget_id {α : Type} (d : List (String × α)) (k : String) (v : α)
    (h : dget d k = some v) : dset d k v = d := by
  induction d with
  | nil => simp [dget] at h
  | cons kv rest ih =>
    obtain ⟨a, b⟩ := kv
    by_cases hak : a = k
    · subst hak
      simp [dget] at h
      simp [dset, h]
    · simp [dget, hak] at h
      simp [dset, hak, ih h]

theorem labEligible_flag_set (l : List (String × PyVal)) (s : String)
    (hs : s ≠ "") : labEligible (dset l "flag" (PyVal.str s)) = false := by
  simp [labEligible, dget_dset_self, flagMissing, hs]

theorem normLab_flag_set (l : List (String × PyVal)) (s : String) (hs : s ≠ "") :
    normLab (PyVal.dict (dset l "flag" (PyVal.str s)))
      = PyVal.dict (dset l "flag" (PyVal.str s)) := by
  simp [normLab, labEligible_flag_set l s hs]

theorem normLab_idem (v : PyVal) : normLab (normLab v) = normLab v := by
  cases v with
  | dict l =>
    by_cases hc : labEligible l = true
    · by_cases h1 : toRat (dget l "value") < toRat (dget l "ref_low")
      · rw [show normLab (PyVal.dict l) = PyVal.dict (dset l "flag" (PyVal.str "L"))
          by simp [normLab, hc, h1]]
        exact normLab_flag_set l "L" (by simp)
      · by_cases h2 : toRat (dget l "value") > toRat (dget l "ref_high")
        · rw [show normLab (PyVal.dict l) = PyVal.dict (dset l "flag" (PyVal.str "H"))
            by simp [normLab, hc, h1, h2]]
          exact normLab_flag_set l "H" (by simp)
        · rw [show normLab (PyVal.dict l) = PyVal.dict (dset l "flag" (PyVal.str "N"))
            by simp [normLab, hc, h1, h2]]
          exact normLab_flag_set l "N" (by simp)
    · simp [normLab, hc]
  | none_ => rfl
  | bool b => rfl
  | int n => rfl
  | float q => rfl
  | str s => rfl
  | list xs => rfl

theorem dget_withContext_ne (data : List (String × PyVal)) (names : List String)
    (k : String) (h : k ≠ "context") :
    dget (withContext data names) k = dget data k :=
  dget_dset_ne data "context" k _ h

theorem dget_withContext_context (data : List (String × PyVal)) (names : List String) :
    dget (withContext data names) "context"
      = some (PyVal.dict (dset (ctxOf data) "report_ids" (PyVal.list (names.map PyVal.str)))) :=
  dget_dset_self data "context" _

theorem normalize_labs_get (data : List (String × PyVal)) (names : List String) :
    dget (normalize_flags_and_context data names) "labs"
      = (dget data "labs").map labsTransform := by
  have hlabs : dget (withContext data names) "labs" = dget data "labs" :=
    dget_withContext_ne data names "labs" (by decide)
  unfold normalize_flags_and_context
  rw [hlabs]
  cases h : dget data "labs" with
  | none =>
    show dget (withContext data names) "labs" = none
    rw [hlabs, h]
  | some w =>
    cases w with
    | list L =>
      show dget (dset (withContext data names) "labs" (PyVal.list (L.map normLab))) "labs"
        = some (PyVal.list (L.map normLab))
      exact dget_dset_self _ "labs" _
    | none_ =>
      show dget (withContext data names) "labs" = some PyVal.none_
      rw [hlabs, h]
    | bool b =>
      show dget (withContext data names) "labs" = some (PyVal.bool b)
      rw [hlabs, h]
    | int n =>
      show dget (withContext data names) "labs" = some (PyVal.int n)
      rw [hlabs, h]
    | float q =>
      show dget (withContext data names) "labs" = some (PyVal.float q)
      rw [hlabs, h]
    | str s =>
      show dget (withContext data names) "labs" = some (PyVal.str s)
      rw [hlabs, h]
    | dict c =>
      show dget (withContext data names) "labs" = some (PyVal.dict c)
      rw [hlabs, h]

theorem normalize_context_get (data : List (String × PyVal)) (names : List String) :
    dget (normalize_flags_and_context data names) "context"
      = some (PyVal.dict (dset (ctxOf data) "report_ids" (PyVal.list (names.map PyVal.str)))) := by
  unfold normalize_flags_and_context
  cases h : dget (withContext data names) "labs" with
  | none => exact dget_withContext_context data names
  | some w =>
    cases w with
    | list L =>
      rw [dget_dset_ne _ "labs" "context" _ (by decide)]
      exact dget_withContext_context data names
    | none_ => exact dget_withContext_context data names
    | bool b => exact dget_withContext_context data names
    | int n => exact dget_withContext_context data names
    | float q => exact dget_withContext_context data names
    | str s => exact dget_withContext_context data names
    | dict c => exact dget_withContext_context data names

theorem normalize_other_get (data : List (String × PyVal)) (names : List String)
    (k : String) (h1 : k ≠ "context") (h2 : k ≠ "labs") :
    dget (normalize_flags_and_context data names) k = dget data k := by
  unfold normalize_flags_and_context
  cases h : dget (withContext data names) "labs" with
  | none => exact dget_withContext_ne data names k h1
  | some w =>
    cases w with
    | list L =>
      rw [dget_dset_ne _ "labs" k _ h2]
      exact dget_withContext_ne data names k h1
    | none_ => exact dget_withContext_ne data names k h1
    | bool b => exact dget_withContext_ne data names k h1
    | int n => exact dget_withContext_ne data names k h1
    | float q => exact dget_withContext_ne data names k h1
    | str s => exact dget_withContext_ne data names k h1
    | dict c => exact dget_withContext_ne data names k h1

theorem withContext_self (data : List (String × PyVal)) (names : List String)
    (h : dget data "context"
      = some (PyVal.dict (dset (ctxOf data) "report_ids" (PyVal.list (names.map PyVal.str))))) :
    withContext data names = data := by
  unfold withContext
  have hc : ctxOf data = dset (ctxOf data) "report_ids" (PyVal.list (names.map PyVal.str)) := by
    conv_lhs => unfold ctxOf
    rw [h]
  rw [← hc] at h ⊢
  exact dset_dget_id data "context" _ h

theorem normalize_flags_idem (data : List (String × PyVal)) (names : List String) :
    normalize_flags_and_context (normalize_flags_and_context data names) names
      = normalize_flags_and_context data names := by
  set r := normalize_flags_and_context data names with hr
  have hctx : dget r "context"
      = some (PyVal.dict (dset (ctxOf data) "report_ids" (PyVal.list (names.map PyVal.str)))) :=
    normalize_context_get data names
  have hctxOf : ctxOf r = dset (ctxOf data) "report_ids" (PyVal.list (names.map PyVal.str)) := by
    conv_lhs => unfold ctxOf
    rw [hctx]
  have hwc : withContext r names = r := by
    apply withContext_self
    rw [hctxOf, dset_dget_id _ "report_ids" _ (dget_dset_self _ "report_ids" _)]
    exact hctx
  have hlabs : dget r "labs" = (dget data "labs").map labsTransform :=
    normalize_labs_get data names
  show (match dget (withContext r names) "labs" with
    | some (PyVal.list labs) => dset (withContext r names) "labs" (PyVal.list (labs.map normLab))
    | _ => withContext r names) = r
  rw [hwc]
  cases hd : dget data "labs" with
  | none =>
    rw [show dget r "labs" = none by rw [hlabs, hd]; rfl]
  | some w =>
    cases w with
    | list L =>
      rw [show dget r "labs" = some (PyVal.list (L.map normLab)) by rw [hlabs, hd]; rfl]
      show dset r "labs" (PyVal.list ((L.map normLab).map normLab)) = r
      have hmap : (L.map normLab).map normLab = L.map normLab := by
        rw [List.map_map]
        exact List.map_congr_left (fun x _ => normLab_idem x)
      rw [hmap]
      exact dset_dget_id r "labs" _ (by rw [hlabs, hd]; rfl)
    | none_ => rw [show dget r "labs" = some PyVal.none_ by rw [hlabs, hd]; rfl]
    | bool b => rw [show dget r "labs" = some (PyVal.bool b) by rw [hlabs, hd]; rfl]
    | int n => rw [show dget r "labs" = some (PyVal.int n) by rw [hlabs, hd]; rfl]
    | float q => rw [show dget r "labs" = some (PyVal.float q) by rw [hlabs, hd]; rfl]
    | str s => rw [show dget r "labs" = some (PyVal.str s) by rw [hlabs, hd]; rfl]
    | dict c => rw [show dget r "labs" = some (PyVal.dict c) by rw [hlabs, hd]; rfl]

theorem pathStr_data (xs : List String) (u : String) (h : xs ≠ []) :
    (pathStr (xs ++ [u])).data = (pathStr xs).data ++ '/' :: u.data := by
  induction xs with
  | nil => exact absurd rfl h
  | cons x rest ih =>
    cases rest with
    | nil =>
      simp [pathStr, String.data_append, show ("/" : String).data = ['/'] from rfl]
    | cons y rest2 =>
      have ih2 := ih (by simp)
      simp only [List.cons_append] at ih2 ⊢
      simp [pathStr, String.data_append, show ("/" : String).data = ['/'] from rfl,
        ih2, List.append_assoc]

theorem pyStartswith_pathStr (xs : List String) (u : String) (h : xs ≠ []) :
    pyStartswith (pathStr (xs ++ [u])) (pathStr xs) = true := by
  unfold pyStartswith
  rw [pathStr_data xs u h]
  simp [ List.isPrefixOf_iff_prefix]

theorem read_prompts_found (lines : List String) (si ui : Nat)
    (hs : find_index lines "SYSTEM" = some si)
    (hu : find_index lines "USER" = some ui) :
    read_prompts_from_markdown lines = assemble_blocks lines si ui := by
  unfold read_prompts_from_markdown
  rw [hs, hu]

theorem flagMissing_iff (v : Option PyVal) :
    flagMissing v = true ↔ isMissingOrEmpty v := by
  cases v with
  | none => simp [flagMissing, isMissingOrEmpty]
  | some w => cases w <;> simp [flagMissing, isMissingOrEmpty]

theorem isNumeric_iff (v : Option PyVal) :
    isNumeric v = true ↔ (numericValue v).isSome := by
  cases v with
  | none => simp [isNumeric, numericValue]
  | some w => cases w <;> simp [isNumeric, numericValue]

theorem toRat_eq (v : Option PyVal) (q : ℚ) (h : numericValue v = some q) :
    toRat v = q := by
  cases v with
  | none => simp [numericValue] at h
  | some w =>
    cases w <;> simp [numericValue] at h <;> simp [toRat, h]

theorem normLab_eligible (l : List (String × PyVal)) (v lo hi : ℚ)
    (hf : isMissingOrEmpty (dget l "flag"))
    (hv : numericValue (dget l "value") = some v)
    (hlo : numericValue (dget l "ref_low") = some lo)
    (hhi : numericValue (dget l "ref_high") = some hi)
    (hq : isMissingOrEmpty (dget l "qualifier")) :
    normLab (PyVal.dict l) = PyVal.dict (dset l "flag" (PyVal.str
      (if v < lo then "L" else if v > hi then "H" else "N"))) := by
  have hc : labEligible l = true := by
    unfold labEligible
    rw [(flagMissing_iff _).mpr hf, (flagMissing_iff _).mpr hq,
      (isNumeric_iff _).mpr (by rw [hv]; rfl),
      (isNumeric_iff _).mpr (by rw [hlo]; rfl),
      (isNumeric_iff _).mpr (by rw [hhi]; rfl)]
    rfl
  unfold normLab
  simp only [hc, if_true]
  rw [toRat_eq _ v hv, toRat_eq _ lo hlo, toRat_eq _ hi hhi]
  by_cases h1 : v < lo
  · simp [h1]
  · by_cases h2 : v > hi
    · simp [h1, h2]
    · simp [h1, h2]

theorem normLab_ineligible (l : List (String × PyVal))
    (h : ¬(isMissingOrEmpty (dget l "flag")
        ∧ (numericValue (dget l "value")).isSome = true
        ∧ (numericValue (dget l "ref_low")).isSome = true
        ∧ (numericValue (dget l "ref_high")).isSome = true
        ∧ isMissingOrEmpty (dget l "qualifier"))) :
    normLab (PyVal.dict l) = PyVal.dict l := by
  have hc : labEligible l = false := by
    cases hcb : labEligible l
    · rfl
    · exfalso
      apply h
      unfold labEligible at hcb
      simp only [Bool.and_eq_true] at hcb
      obtain ⟨⟨⟨⟨h1, h2⟩, h3⟩, h4⟩, h5⟩ := hcb
      exact ⟨(flagMissing_iff _).mp h1, (isNumeric_iff _).mp h2,
        (isNumeric_iff _).mp h3, (isNumeric_iff _).mp h4, (flagMissing_iff _).mp h5⟩
  simp [normLab, hc]

/-! Claim theorems. -/

/-- C1 (counterexample to the claim as stated): the entry
`{value: 5, ref_low: 5, ref_high: 3}` is eligible for flag inference and has
`value == ref_low`, yet the code assigns flag `"H"`, not `"N"`: with
`ref_low > ref_high` the "otherwise N" reading of the parenthetical fails,
because `value > ref_high` is checked before `N` is reached. -/
theorem C1_counterexample :
    normalize_flags_and_context
        [("labs", PyVal.list [PyVal.dict
          [("value", PyVal.int 5), ("ref_low", PyVal.int 5), ("ref_high", PyVal.int 3)]])] []
      = [("labs", PyVal.list [PyVal.dict
          [("value", PyVal.int 5), ("ref_low", PyVal.int 5), ("ref_high", PyVal.int 3),
           ("flag", PyVal.str "H")]]),
         ("context", PyVal.dict [("report_ids", PyVal.list [])])]
    ∧ ("H" : String) ≠ "N" :=
  ⟨rfl, by decide⟩

/-- C1 (amended): for every mapping entry of `data.labs`, if its flag is
missing/empty, `value`, `ref_low`, `ref_high` are all numeric and its
qualifier is missing/empty, then the flag is set to `"L"` when
`value < ref_low`, otherwise to `"H"` when `value > ref_high`, and to `"N"`
otherwise (so when `ref_low ≤ ref_high`, `value == ref_low` or
`value == ref_high` yields `"N"`, inclusive bounds); every entry not meeting
all the conditions is left unchanged. -/
theorem C1_flag_inference (data : List (String × PyVal)) (names : List String)
    (L : List PyVal) (hL : dget data "labs" = some (PyVal.list L)) :
    ∃ L', dget (normalize_flags_and_context data names) "labs" = some (PyVal.list L')
      ∧ L'.length = L.length ∧ flagInferenceSpec L L' := by
  refine ⟨L.map normLab, ?_, by simp, ?_⟩
  · rw [normalize_labs_get, hL]
    rfl
  · intro i h1 h2
    have hmap : (L.map normLab)[i] = normLab L[i] := by simp
    refine ⟨?_, ?_⟩
    · intro l hl
      constructor
      · intro v lo hi hf hv hlo hhi hq
        rw [hmap, hl, normLab_eligible l v lo hi hf hv hlo hhi hq]
      · intro hne
        rw [hmap, hl, normLab_ineligible l hne]
    · intro hnd
      rw [hmap]
      cases hx : L[i] with
      | dict c => exact absurd hx (hnd c)
      | none_ => rfl
      | bool b => rfl
      | int n => rfl
      | float q => rfl
      | str s => rfl
      | list xs => rfl

/-- C1 witness: the amended theorem applied to a one-entry labs list with
`value 3 < ref_low 4`. -/
theorem C1_flag_inference_witness :
    dget [("labs", PyVal.list [PyVal.dict
        [("value", PyVal.int 3), ("ref_low", PyVal.int 4), ("ref_high", PyVal.int 10)]])] "labs"
      = some (PyVal.list [PyVal.dict
        [("value", PyVal.int 3), ("ref_low", PyVal.int 4), ("ref_high", PyVal.int 10)]])
    ∧ ∃ L', dget (normalize_flags_and_context
        [("labs", PyVal.list [PyVal.dict
          [("value", PyVal.int 3), ("ref_low", PyVal.int 4), ("ref_high", PyVal.int 10)]])] [])
        "labs" = some (PyVal.list L')
      ∧ L'.length = [PyVal.dict
          [("value", PyVal.int 3), ("ref_low", PyVal.int 4), ("ref_high", PyVal.int 10)]].length
      ∧ flagInferenceSpec
          [PyVal.dict [("value", PyVal.int 3), ("ref_low", PyVal.int 4), ("ref_high", PyVal.int 10)]]
          L' :=
  ⟨rfl, C1_flag_inference _ [] _ rfl⟩

/-- C2: after `normalize_flags_and_context data pdf_names`, the `context`
field is a mapping whose `report_ids` key is exactly the supplied filename
list (order and duplicates preserved, empty when no PDFs), for every `data`,
in particular when `labs` is absent or malformed; a non-mapping `context` is
replaced by a fresh mapping first. -/
theorem C2_report_ids (data : List (String × PyVal)) (names : List String) :
    ∃ c, dget (normalize_flags_and_context data names) "context" = some (PyVal.dict c)
      ∧ dget c "report_ids" = some (PyVal.list (names.map PyVal.str)) :=
  ⟨dset (ctxOf data) "report_ids" (PyVal.list (names.map PyVal.str)),
    normalize_context_get data names, dget_dset_self _ _ _⟩

/-- C3: `normalize_flags_and_context` is idempotent: applying it twice with
the same PDF filename list equals applying it once. -/
theorem C3_normalize_idempotent (data : List (String × PyVal)) (names : List String) :
    normalize_flags_and_context (normalize_flags_and_context data names) names
      = normalize_flags_and_context data names :=
  normalize_flags_idem data names

/-- C7: `normalize_flags_and_context` is total on well-typed input (it is a
total Lean function, mirroring Python code whose operations cannot raise on a
dict and a string list), and when `data.labs` is absent or not a list, the
`labs` field is left untouched and no `labs` key is created. -/
theorem C7_labs_preserved (data : List (String × PyVal)) (names : List String) :
    (dget data "labs" = none → dget (normalize_flags_and_context data names) "labs" = none)
    ∧ (∀ v, dget data "labs" = some v → (∀ xs, v ≠ PyVal.list xs) →
        dget (normalize_flags_and_context data names) "labs" = some v) := by
  constructor
  · intro h
    rw [normalize_labs_get, h]
    rfl
  · intro v hv hnl
    rw [normalize_labs_get, hv]
    cases v with
    | list xs => exact absurd rfl (hnl xs)
    | none_ => rfl
    | bool b => rfl
    | int n => rfl
    | float q => rfl
    | str s => rfl
    | dict c => rfl

/-- C7 witness: a dict without a `labs` key still has none after
normalization. -/
theorem C7_labs_preserved_witness :
    dget [("raw", PyVal.str "x")] "labs" = none
      ∧ dget (normalize_flags_and_context [("raw", PyVal.str "x")] ["a.pdf"]) "labs" = none :=
  ⟨rfl, (C7_labs_preserved [("raw", PyVal.str "x")] ["a.pdf"]).1 rfl⟩

/-- C9: `normalize_flags_and_context` modifies at most the `flag` field of
lab entries and the `report_ids` key of `context`: every other key of `data`,
every other key of a pre-existing `context` mapping, and every field of every
lab entry other than `flag` keep their values, and the order and length of
the labs list are preserved. -/
theorem C9_frame (data : List (String × PyVal)) (names : List String) :
    (∀ k, k ≠ "context" → k ≠ "labs" →
      dget (normalize_flags_and_context data names) k = dget data k)
    ∧ (∀ c, dget data "context" = some (PyVal.dict c) →
        ∃ c', dget (normalize_flags_and_context data names) "context" = some (PyVal.dict c')
          ∧ ∀ k, k ≠ "report_ids" → dget c' k = dget c k)
    ∧ (∀ L, dget data "labs" = some (PyVal.list L) →
        ∃ L', dget (normalize_flags_and_context data names) "labs" = some (PyVal.list L')
          ∧ L'.length = L.length
          ∧ ∀ i (h1 : i < L.length) (h2 : i < L'.length),
            (∀ l, L[i] = PyVal.dict l →
              ∃ l', L'[i] = PyVal.dict l' ∧ ∀ f, f ≠ "flag" → dget l' f = dget l f)
            ∧ ((∀ l, L[i] ≠ PyVal.dict l) → L'[i] = L[i])) := by
  refine ⟨fun k h1 h2 => normalize_other_get data names k h1 h2, ?_, ?_⟩
  · intro c hc
    refine ⟨dset (ctxOf data) "report_ids" (PyVal.list (names.map PyVal.str)),
      normalize_context_get data names, ?_⟩
    intro k hk
    rw [dget_dset_ne _ _ _ _ hk]
    unfold ctxOf
    rw [hc]
  · intro L hL
    refine ⟨L.map normLab, ?_, by simp, ?_⟩
    · rw [normalize_labs_get, hL]
      rfl
    · intro i h1 h2
      have hmap : (L.map normLab)[i] = normLab L[i] := by simp
      constructor
      · intro l hl
        by_cases hc : labEligible l = true
        · refine ⟨dset l "flag" (PyVal.str
            (if toRat (dget l "value") < toRat (dget l "ref_low") then "L"
             else if toRat (dget l "value") > toRat (dget l "ref_high") then "H" else "N")),
            ?_, fun f hf => dget_dset_ne l "flag" f _ hf⟩
          rw [hmap, hl]
          unfold normLab
          simp only [hc, if_true]
          by_cases hlt : toRat (dget l "value") < toRat (dget l "ref_low")
          · simp [hlt]
          · by_cases hgt : toRat (dget l "value") > toRat (dget l "ref_high")
            · simp [hlt, hgt]
            · simp [hlt, hgt]
        · refine ⟨l, ?_, fun f hf => rfl⟩
          rw [hmap, hl]
          simp [normLab, hc]
      · intro hnd
        rw [hmap]
        cases hx : L[i] with
        | dict c => exact absurd hx (hnd c)
        | none_ => rfl
        | bool b => rfl
        | int n => rfl
        | float q => rfl
        | str s => rfl
        | list xs => rfl

/-- C9 witness: an unrelated top-level key survives normalization
unchanged. -/
theorem C9_frame_witness :
    ("x" : String) ≠ "context"
      ∧ dget (normalize_flags_and_context
          [("x", PyVal.int 7), ("context", PyVal.dict [("note", PyVal.str "n")]),
           ("labs", PyVal.list [PyVal.str "odd"])] ["r.pdf"]) "x"
        = dget [("x", PyVal.int 7), ("context", PyVal.dict [("note", PyVal.str "n")]),
           ("labs", PyVal.list [PyVal.str "odd"])] "x" :=
  ⟨by decide,
    (C9_frame [("x", PyVal.int 7), ("context", PyVal.dict [("note", PyVal.str "n")]),
      ("labs", PyVal.list [PyVal.str "odd"])] ["r.pdf"]).1 "x" (by decide) (by decide)⟩

/-- C10: booleans pass the numeric test of flag inference (Python `bool` is a
subclass of `int`): a lab entry whose `value`, `ref_low` or `ref_high` is a
boolean still gets a flag, with `True` comparing as 1 and `False` as 0. -/
theorem C10_bool_numeric (v lo hi : PyVal)
    (hv : isNumeric (some v) = true) (hlo : isNumeric (some lo) = true)
    (hhi : isNumeric (some hi) = true) :
    dget (normalize_flags_and_context
        [("labs", PyVal.list [PyVal.dict [("value", v), ("ref_low", lo), ("ref_high", hi)]])] [])
        "labs"
      = some (PyVal.list [PyVal.dict
          [("value", v), ("ref_low", lo), ("ref_high", hi),
           ("flag", PyVal.str (if toRat (some v) < toRat (some lo) then "L"
             else if toRat (some v) > toRat (some hi) then "H" else "N"))]])
    ∧ isNumeric (some (PyVal.bool true)) = true
    ∧ isNumeric (some (PyVal.bool false)) = true
    ∧ toRat (some (PyVal.bool true)) = 1
    ∧ toRat (some (PyVal.bool false)) = 0 := by
  refine ⟨?_, rfl, rfl, rfl, rfl⟩
  have helig : labEligible [("value", v), ("ref_low", lo), ("ref_high", hi)] = true := by
    simp [labEligible, dget, flagMissing, hv, hlo, hhi]
  rw [normalize_labs_get]
  by_cases hlt : toRat (some v) < toRat (some lo)
  · simp [dget, labsTransform, normLab, helig, hlt, dset]
  · by_cases hgt : toRat (some v) > toRat (some hi)
    · simp [dget, labsTransform, normLab, helig, hlt, hgt, dset]
    · simp [dget, labsTransform, normLab, helig, hlt, hgt, dset]

/-- C10 witness: `value = True` with range `[4, 10]` is flagged `"L"`
(`True` compares as 1 < 4). -/
theorem C10_bool_numeric_witness :
    isNumeric (some (PyVal.bool true)) = true
      ∧ (dget (normalize_flags_and_context
          [("labs", PyVal.list [PyVal.dict
            [("value", PyVal.bool true), ("ref_low", PyVal.int 4), ("ref_high", PyVal.int 10)]])] [])
          "labs"
        = some (PyVal.list [PyVal.dict
            [("value", PyVal.bool true), ("ref_low", PyVal.int 4), ("ref_high", PyVal.int 10),
             ("flag", PyVal.str (if toRat (some (PyVal.bool true)) < toRat (some (PyVal.int 4)) then "L"
               else if toRat (some (PyVal.bool true)) > toRat (some (PyVal.int 10)) then "H"
               else "N"))]])
        ∧ isNumeric (some (PyVal.bool true)) = true
        ∧ isNumeric (some (PyVal.bool false)) = true
        ∧ toRat (some (PyVal.bool true)) = 1
        ∧ toRat (some (PyVal.bool false)) = 0) :=
  ⟨rfl, C10_bool_numeric (PyVal.bool true) (PyVal.int 4) (PyVal.int 10) rfl rfl rfl⟩

/-- C4: the prompt loader fails exactly when the SYSTEM marker is missing,
the USER marker is missing, the (first) USER marker does not come after the
(first) SYSTEM marker, or either resulting block is empty after trimming;
otherwise it returns the trimmed text between the markers and the trimmed
text after USER to end of file; in particular on
`SYSTEM, A, B, USER, C, D` it returns `("A\nB", "C\nD")`. -/
theorem C4_prompt_loader (lines : List String) :
    ((∃ e, read_prompts_from_markdown lines = Except.error e) ↔
      (find_index lines "SYSTEM" = none
        ∨ find_index lines "USER" = none
        ∨ (∃ si ui, find_index lines "SYSTEM" = some si ∧ find_index lines "USER" = some ui
            ∧ ui ≤ si)
        ∨ (∃ si ui, find_index lines "SYSTEM" = some si ∧ find_index lines "USER" = some ui
            ∧ si < ui ∧ (sysBlockOf lines si ui = "" ∨ userBlockOf lines ui = ""))))
    ∧ (∀ si ui, find_index lines "SYSTEM" = some si → find_index lines "USER" = some ui →
        si < ui → sysBlockOf lines si ui ≠ "" → userBlockOf lines ui ≠ "" →
        read_prompts_from_markdown lines
          = Except.ok (sysBlockOf lines si ui, userBlockOf lines ui))
    ∧ read_prompts_from_markdown ["SYSTEM", "A", "B", "USER", "C", "D"]
        = Except.ok ("A\nB", "C\nD") := by
  refine ⟨?_, ?_, rfl⟩
  · cases hs : find_index lines "SYSTEM" with
    | none =>
      cases hu : find_index lines "USER" with
      | none =>
        exact ⟨fun _ => Or.inl rfl,
          fun _ => ⟨_, by unfold read_prompts_from_markdown; rw [hs, hu]⟩⟩
      | some ui =>
        exact ⟨fun _ => Or.inl rfl,
          fun _ => ⟨_, by unfold read_prompts_from_markdown; rw [hs, hu]⟩⟩
    | some si =>
      cases hu : find_index lines "USER" with
      | none =>
        exact ⟨fun _ => Or.inr (Or.inl rfl),
          fun _ => ⟨_, by unfold read_prompts_from_markdown; rw [hs, hu]⟩⟩
      | some ui =>
        have hred : read_prompts_from_markdown lines = assemble_blocks lines si ui :=
          read_prompts_found lines si ui hs hu
        by_cases hord : ui ≤ si
        · refine ⟨fun _ => Or.inr (Or.inr (Or.inl ⟨si, ui, rfl, rfl, hord⟩)),
            fun _ => ⟨"Could not locate SYSTEM and USER blocks in ai-prompt.md", ?_⟩⟩
          rw [hred]
          unfold assemble_blocks
          rw [if_pos hord]
        · by_cases hemp : sysBlockOf lines si ui = "" ∨ userBlockOf lines ui = ""
          · refine ⟨fun _ => Or.inr (Or.inr (Or.inr ⟨si, ui, rfl, rfl, Nat.lt_of_not_le hord, hemp⟩)),
              fun _ => ⟨"SYSTEM or USER block appears empty in ai-prompt.md", ?_⟩⟩
            rw [hred]
            unfold assemble_blocks
            rw [if_neg hord, if_pos hemp]
          · have hok : read_prompts_from_markdown lines
                = Except.ok (sysBlockOf lines si ui, userBlockOf lines ui) := by
              rw [hred]
              unfold assemble_blocks
              rw [if_neg hord, if_neg hemp]
            constructor
            · rintro ⟨e, he⟩
              rw [hok] at he
              cases he
            · rintro (h | h | ⟨si', ui', hs', hu', hord'⟩ | ⟨si', ui', hs', hu', hlt', hemp'⟩)
              · cases h
              · cases h
              · injection hs' with h1
                injection hu' with h2
                subst h1
                subst h2
                exact absurd hord' hord
              · injection hs' with h1
                injection hu' with h2
                subst h1
                subst h2
                exact absurd hemp' hemp
  · intro si ui hsi hui hlt hsb hub
    rw [read_prompts_found lines si ui hsi hui]
    unfold assemble_blocks
    rw [if_neg (not_le.mpr hlt), if_neg (fun h => h.elim hsb hub)]

/-- C4 witness: the success branch applied to the spec's example file. -/
theorem C4_prompt_loader_witness :
    find_index ["SYSTEM", "A", "B", "USER", "C", "D"] "SYSTEM" = some 0
      ∧ read_prompts_from_markdown ["SYSTEM", "A", "B", "USER", "C", "D"]
          = Except.ok (sysBlockOf ["SYSTEM", "A", "B", "USER", "C", "D"] 0 3,
              userBlockOf ["SYSTEM", "A", "B", "USER", "C", "D"] 3) :=
  ⟨rfl, (C4_prompt_loader ["SYSTEM", "A", "B", "USER", "C", "D"]).2.1 0 3 rfl rfl
    (by decide) (by decide) (by decide)⟩

/-- C5 counterexample: the claim says a marker surrounded by whitespace is
not treated as a section delimiter, but the loader strips each line before
comparing, so `"  SYSTEM  "` is accepted as the SYSTEM delimiter and the
parse succeeds. -/
theorem C5_counterexample :
    read_prompts_from_markdown ["  SYSTEM  ", "A", "USER", "B"] = Except.ok ("A", "B")
    ∧ find_index ["  SYSTEM  ", "A", "USER", "B"] "SYSTEM" = some 0 :=
  ⟨rfl, rfl⟩

/-- C5 (amended): the loader recognizes a section delimiter on exactly the
first line whose whitespace-stripped content equals the literal marker
string; in particular a marker surrounded by whitespace IS a delimiter, and a
line whose stripped content differs from the marker never is. -/
theorem C5_marker_recognition (lines : List String) (label : String) :
    (∀ i, find_index lines label = some i ↔
      ∃ h : i < lines.length, pyStrip lines[i] = label
        ∧ ∀ j (hj : j < i), pyStrip (lines.get ⟨j, Nat.lt_trans hj h⟩) ≠ label)
    ∧ (find_index lines label = none ↔ ∀ ln ∈ lines, pyStrip ln ≠ label) := by
  constructor
  · intro i
    unfold find_index
    rw [List.findIdx?_eq_some_iff_getElem]
    constructor
    · rintro ⟨h, hp, hprev⟩
      refine ⟨h, by simpa using hp, ?_⟩
      intro j hj
      have := hprev j hj
      simpa using this
    · rintro ⟨h, hp, hprev⟩
      refine ⟨h, by simpa using hp, ?_⟩
      intro j hj
      have := hprev j hj
      simpa using this
  · unfold find_index
    rw [List.findIdx?_eq_none_iff]
    constructor
    · intro h ln hln
      have := h ln hln
      simpa using this
    · intro h ln hln
      simpa using h ln hln

/-- C6 counterexample: API key set, prompt file missing: the CLI does not
produce a handled stderr-plus-exit-2 outcome; it hits an uncaught
`FileNotFoundError` from `Path.read_text` (traceback, interpreter exit
status 1). -/
theorem C6_counterexample :
    reportsError2 (main_pre
      { apiKeySet := true, readFileLines := fun _ => none,
        fileIsFile := fun _ => false, dirListing := fun _ => none }
      { files := [], output := "labs.json", model := "gpt-4.1",
        prompt := "ai-prompt.md", input_dir := "input_files", max_files := 0 }) = false
    ∧ main_pre
      { apiKeySet := true, readFileLines := fun _ => none,
        fileIsFile := fun _ => false, dirListing := fun _ => none }
      { files := [], output := "labs.json", model := "gpt-4.1",
        prompt := "ai-prompt.md", input_dir := "input_files", max_files := 0 }
      = MainOutcome.uncaught "FileNotFoundError" :=
  ⟨rfl, rfl⟩

/-- C6 (amended): for every CLI invocation with the credential set and a
missing prompt file, `main` terminates before any network call, but via an
uncaught `FileNotFoundError` (traceback on stderr, interpreter exit status
1), not via a handled error message with exit code 2. -/
theorem C6_missing_prompt_uncaught (w : CliWorld) (a : CliArgs)
    (hkey : w.apiKeySet = true) (hmiss : w.readFileLines a.prompt = none) :
    main_pre w a = MainOutcome.uncaught "FileNotFoundError" := by
  unfold main_pre
  simp [hkey, hmiss]

/-- C6 witness: the amended theorem at a concrete world and argument
vector. -/
theorem C6_missing_prompt_uncaught_witness :
    ({ apiKeySet := true, readFileLines := fun _ => none,
       fileIsFile := fun _ => false, dirListing := fun _ => none } : CliWorld).apiKeySet = true
      ∧ main_pre
        { apiKeySet := true, readFileLines := fun _ => none,
          fileIsFile := fun _ => false, dirListing := fun _ => none }
        { files := ["a.pdf"], output := "out.json", model := "gpt-4.1",
          prompt := "missing.md", input_dir := "input_files", max_files := 0 }
        = MainOutcome.uncaught "FileNotFoundError" :=
  ⟨rfl, C6_missing_prompt_uncaught _ _ rfl rfl⟩

theorem rmtree_self_not_mem (root : List String) (fs : List (List String)) :
    root ∉ rmtree root fs := by
  simp [rmtree, List.mem_filter, List.isPrefixOf_iff_prefix]

theorem rmtree_removed_under (root q : List String) (fs : List (List String))
    (hq : q ∈ fs) (hnot : q ∉ rmtree root fs) : root <+: q := by
  by_contra hcon
  apply hnot
  simp only [rmtree, List.mem_filter, Bool.not_eq_true']
  refine ⟨hq, ?_⟩
  cases hb : root.isPrefixOf q
  · rfl
  · exact absurd ( List.isPrefixOf_iff_prefix.mp hb) hcon

theorem cleanup_scratch_core (baseDir : List String) (uuid u0 : String)
    (saved_rest : List (List String)) (fs3 : List (List String))
    (huuid : uuid ≠ "tmp_uploads")
    (hmem : (baseDir ++ ["tmp_uploads", uuid]) ∈ fs3) :
    cleanup_paths baseDir ((baseDir ++ ["tmp_uploads", uuid] ++ [u0]) :: saved_rest) fs3
      = rmtree (baseDir ++ ["tmp_uploads", uuid]) fs3 := by
  have h1 : (baseDir ++ ["tmp_uploads", uuid]).getLastD "" = uuid := by
    rw [show baseDir ++ ["tmp_uploads", uuid] = (baseDir ++ ["tmp_uploads"]) ++ [uuid] by simp]
    exact List.getLastD_concat _ _ _
  have h2 : List.elem (baseDir ++ ["tmp_uploads", uuid]) fs3 = true :=
    List.elem_iff.mpr hmem
  have h3 : pyStartswith (pathStr (baseDir ++ ["tmp_uploads", uuid]))
      (pathStr (baseDir ++ ["tmp_uploads"])) = true := by
    rw [show baseDir ++ ["tmp_uploads", uuid] = (baseDir ++ ["tmp_uploads"]) ++ [uuid] by simp]
    exact pyStartswith_pathStr _ uuid (by simp)
  simp only [cleanup_paths, List.dropLast_concat]
  rw [if_pos (by rw [h1]; exact huuid)]
  rw [if_pos (by rw [h2, h3]; rfl)]

theorem save_go_ok (tmpDir : List String) (uploads : List Upload)
    (fs0 : List (List String))
    (h : ∀ u ∈ uploads, (u.parts.isEmpty || !u.copyOk) = false) :
    ∃ fsO, save_go tmpDir uploads fs0
        = Except.ok (uploads.map (fun u => destOf tmpDir u), fsO)
      ∧ ∀ q, q ∈ fsO ↔ (∃ u ∈ uploads, q = destOf tmpDir u) ∨ q ∈ fs0 := by
  induction uploads generalizing fs0 with
  | nil => exact ⟨fs0, rfl, by simp⟩
  | cons u rest ih =>
    have hu := h u (List.mem_cons_self _ _)
    obtain ⟨fsO, hgo, hmem⟩ :=
      ih (destOf tmpDir u :: fs0) (fun v hv => h v (List.mem_cons_of_mem _ hv))
    refine ⟨fsO, ?_, ?_⟩
    · simp only [save_go, hu]
      rw [hgo]
      simp
    · intro q
      rw [hmem q]
      simp only [List.mem_cons]
      constructor
      · rintro (⟨v, hv, hq⟩ | hq | hq)
        · exact Or.inl ⟨v, Or.inr hv, hq⟩
        · exact Or.inl ⟨u, Or.inl rfl, hq⟩
        · exact Or.inr hq
      · rintro (⟨v, hv, hq⟩ | hq)
        · cases hv with
          | inl heq => exact Or.inr (Or.inl (heq ▸ hq))
          | inr hm => exact Or.inl ⟨v, hm, hq⟩
        · exact Or.inr (Or.inr hq)

theorem save_go_err (tmpDir : List String) (uploads : List Upload)
    (fs0 : List (List String))
    (h : ∃ u ∈ uploads, (u.parts.isEmpty || !u.copyOk) = true) :
    ∃ fsE, save_go tmpDir uploads fs0 = Except.error fsE ∧ ∀ q ∈ fs0, q ∈ fsE := by
  induction uploads generalizing fs0 with
  | nil => simp at h
  | cons u rest ih =>
    by_cases hu : (u.parts.isEmpty || !u.copyOk) = true
    · refine ⟨fs0, ?_, fun q hq => hq⟩
      simp only [save_go, hu]
      rfl
    · have hu' : (u.parts.isEmpty || !u.copyOk) = false := by
        cases hb : (u.parts.isEmpty || !u.copyOk)
        · rfl
        · exact absurd hb hu
      have hrest : ∃ v ∈ rest, (v.parts.isEmpty || !v.copyOk) = true := by
        obtain ⟨v, hv, hfail⟩ := h
        cases List.mem_cons.mp hv with
        | inl heq => exact absurd (heq ▸ hfail) hu
        | inr hm => exact ⟨v, hm, hfail⟩
      obtain ⟨fsE, hgoE, hsub⟩ := ih (destOf tmpDir u :: fs0) hrest
      refine ⟨fsE, ?_, fun q hq => hsub q (List.mem_cons_of_mem _ hq)⟩
      simp only [save_go, hu']
      rw [hgoE]
      rfl

/-- C8 counterexample to the claim as stated: one uploaded file whose copy
raises (a client disconnect mid-stream; an empty filename behaves the same
way) makes `_save_uploads_to_temp` raise after creating the scratch
directory, the exception escapes before `saved_paths` is assigned, the
`finally` guard `if files and saved_paths` skips `_cleanup_paths`, and the
scratch directory `srv/tmp_uploads/u1` still exists after the failed
request. -/
theorem C8_counterexample :
    ingest_scratch ["srv"] "u1"
        [{ isAbs := false, parts := ["a.pdf"], copyOk := false }] true
        [["srv", "input_files"]]
      = [["srv", "tmp_uploads", "u1"], ["srv", "tmp_uploads"], ["srv", "input_files"]]
    ∧ ["srv", "tmp_uploads", "u1"]
        ∈ ingest_scratch ["srv"] "u1"
            [{ isAbs := false, parts := ["a.pdf"], copyOk := false }] true
            [["srv", "input_files"]] :=
  ⟨rfl, by decide⟩

/-- C8 (amended): for every ingest request uploading at least one file, IF
every upload has a plain relative single-component filename (not empty, `.`
or `..`) and every copy succeeds, then after the request completes — whether
the model call returns a result or raises — the per-request scratch
directory `BASE_DIR/tmp_uploads/<uuid>` no longer exists in the filesystem,
and the cleanup only removes paths lying under the scratch root
`BASE_DIR/tmp_uploads`; but if saving the uploads itself raises (empty
filename, interrupted copy), `saved_paths` is still empty, the `finally`
guard skips `_cleanup_paths`, and the already-created scratch directory
persists.  The single-component restriction also marks where the model is
faithful: multi-component or dot names cannot be copied successfully (the
intermediate directory does not exist, or the destination is a directory). -/
theorem C8_scratch_cleanup (baseDir : List String) (uuid : String)
    (uploads : List Upload) (processOk : Bool) (fs : List (List String))
    (hup : uploads ≠ []) (huuid : uuid ≠ "tmp_uploads") :
    ((∀ u ∈ uploads, u.isAbs = false ∧ u.copyOk = true
        ∧ ∃ n, u.parts = [n] ∧ n ≠ "" ∧ n ≠ "." ∧ n ≠ "..") →
      (baseDir ++ ["tmp_uploads", uuid]) ∉ ingest_scratch baseDir uuid uploads processOk fs
      ∧ ∀ q ∈ fs, q ∉ ingest_scratch baseDir uuid uploads processOk fs →
          (baseDir ++ ["tmp_uploads"]) <+: q)
    ∧ ((∃ u ∈ uploads, (u.parts.isEmpty || !u.copyOk) = true) →
      (baseDir ++ ["tmp_uploads", uuid]) ∈ ingest_scratch baseDir uuid uploads processOk fs) := by
  obtain ⟨u0, us, rfl⟩ : ∃ u0 us, uploads = u0 :: us := by
    cases uploads with
    | nil => exact absurd rfl hup
    | cons a b => exact ⟨a, b, rfl⟩
  constructor
  · intro hben
    obtain ⟨habs0, hcopy0, n0, hparts0, -, -, -⟩ := hben u0 (List.mem_cons_self _ _)
    have hall : ∀ u ∈ u0 :: us, (u.parts.isEmpty || !u.copyOk) = false := by
      intro u hu
      obtain ⟨-, hcopy, n, hparts, -, -, -⟩ := hben u hu
      simp [hparts, hcopy]
    obtain ⟨fsO, hgo, hmemO⟩ := save_go_ok (baseDir ++ ["tmp_uploads", uuid]) (u0 :: us)
      ((baseDir ++ ["tmp_uploads", uuid]) :: (baseDir ++ ["tmp_uploads"]) :: fs) hall
    have hmemtmp : (baseDir ++ ["tmp_uploads", uuid])
        ∈ (if processOk then (baseDir ++ ["labs.json"]) :: fsO else fsO) := by
      have hin : (baseDir ++ ["tmp_uploads", uuid]) ∈ fsO :=
        (hmemO _).mpr (Or.inr (List.mem_cons_self _ _))
      cases processOk <;> simp [hin]
    have hhead : (u0 :: us).map (fun u => destOf (baseDir ++ ["tmp_uploads", uuid]) u)
        = (baseDir ++ ["tmp_uploads", uuid] ++ [n0])
            :: us.map (fun u => destOf (baseDir ++ ["tmp_uploads", uuid]) u) := by
      simp [destOf, habs0, hparts0]
    have hing : ingest_scratch baseDir uuid (u0 :: us) processOk fs
        = rmtree (baseDir ++ ["tmp_uploads", uuid])
            (if processOk then (baseDir ++ ["labs.json"]) :: fsO else fsO) := by
      unfold ingest_scratch save_uploads_to_temp
      rw [hgo]
      show cleanup_paths baseDir
          ((u0 :: us).map (fun u => destOf (baseDir ++ ["tmp_uploads", uuid]) u))
          (if processOk then (baseDir ++ ["labs.json"]) :: fsO else fsO) = _
      rw [hhead]
      exact cleanup_scratch_core baseDir uuid n0 _ _ huuid hmemtmp
    rw [hing]
    constructor
    · exact rmtree_self_not_mem _ _
    · intro q hq hnot
      have hq3 : q ∈ (if processOk then (baseDir ++ ["labs.json"]) :: fsO else fsO) := by
        have hin : q ∈ fsO := (hmemO q).mpr (Or.inr (by simp [hq]))
        cases processOk <;> simp [hin]
      have hpre := rmtree_removed_under _ _ _ hq3 hnot
      have hroot : (baseDir ++ ["tmp_uploads"]) <+: (baseDir ++ ["tmp_uploads", uuid]) := by
        refine ⟨[uuid], ?_⟩
        simp
      exact hroot.trans hpre
  · intro hfail
    obtain ⟨fsE, hgoE, hsub⟩ := save_go_err (baseDir ++ ["tmp_uploads", uuid]) (u0 :: us)
      ((baseDir ++ ["tmp_uploads", uuid]) :: (baseDir ++ ["tmp_uploads"]) :: fs) hfail
    have hing : ingest_scratch baseDir uuid (u0 :: us) processOk fs = fsE := by
      unfold ingest_scratch save_uploads_to_temp
      rw [hgoE]
    rw [hing]
    exact hsub _ (List.mem_cons_self _ _)

/-- C8 witness: a concrete benign ingest run (one successfully copied
single-component upload, a failing model call, an unrelated pre-existing
directory) after which the scratch directory is gone. -/
theorem C8_scratch_cleanup_witness :
    ([{ isAbs := false, parts := ["a.pdf"], copyOk := true }] : List Upload) ≠ []
      ∧ (["srv", "tmp_uploads", "u1"] : List String)
          ∉ ingest_scratch ["srv"] "u1"
              [{ isAbs := false, parts := ["a.pdf"], copyOk := true }] false
              [["srv", "input_files"]] :=
  ⟨by simp, ((C8_scratch_cleanup ["srv"] "u1"
      [{ isAbs := false, parts := ["a.pdf"], copyOk := true }] false [["srv", "input_files"]]
      (by simp) (by decide)).1
    (by intro u hu; simp at hu; subst hu; exact ⟨rfl, rfl, "a.pdf", rfl, by decide, by decide, by decide⟩)).1⟩
